import Mathlib

/-!
Formal model of the BlockSentinel repository (Go): the incremental blockchain
scan engine (`fetchNewTransactions`), its checkpoint store (`loadState` /
`saveState` / `resolveStateFile`), the Postgres backoff connector
(`ConnectPostgresWithBackoff`), the watch-list selection in `main`, and the
per-tick main loop.  Each definition is a shallow embedding translated from
the Go source; external collaborators (the RPC client, the registry, the
analyzer) are modelled as per-tick environments whose results are arbitrary.
-/

namespace BlockSentinel

/-! ### Decimal digits and the JSON state document

`saveState` serializes `State{LastBlock: n}` with `json.Marshal`, producing
the document `{"last_block":<decimal>}`.  `loadState` runs `json.Unmarshal`
and discards its error, so any document that does not bind `last_block`
leaves the zero value 0.  The parser below models `json.Unmarshal`
restricted to documents of the exact shape the program itself writes; every
other content behaves as invalid (field left at its zero value), which is
what `Unmarshal` does for non-schema input since it validates syntax before
decoding. -/

/-- ASCII character of the decimal digit `d`. -/
def digitChar (d : Nat) : Char := Char.ofNat (48 + d)

/-- Least-significant-first decimal digits of `n`; `fuel` bounds the recursion. -/
def natDigitsAux : Nat → Nat → List Nat
  | 0, _ => []
  | _ + 1, 0 => []
  | fuel + 1, n + 1 => ((n + 1) % 10) :: natDigitsAux fuel ((n + 1) / 10)

/-- Least-significant-first decimal digits of `n`. -/
def natDigits (n : Nat) : List Nat := natDigitsAux n n

/-- Decimal character rendering of `n`, most significant digit first
(the formatting `json.Marshal` uses for a `uint64`). -/
def natChars (n : Nat) : List Char :=
  if n = 0 then [digitChar 0] else ((natDigits n).map digitChar).reverse

/-- Boolean digit test, modelling the byte-range test of a decimal digit. -/
def isDigitChar (c : Char) : Bool := decide (48 ≤ c.toNat) && decide (c.toNat ≤ 57)

/-- Numeric value of a digit character. -/
def digitVal (c : Char) : Nat := c.toNat - 48

/-- The opening brace character. -/
def lbrace : Char := Char.ofNat 123

/-- The closing brace character. -/
def rbrace : Char := Char.ofNat 125

/-- The characters of the `"last_block":` key, as `json.Marshal` writes them. -/
def keyChars : List Char := "\"last_block\":".data

/-- Characters of the serialized state document `json.Marshal(State{LastBlock: n})`. -/
def encodeStateData (n : Nat) : List Char := lbrace :: keyChars ++ natChars n ++ [rbrace]

/-- The serialized state document written by `saveState`. -/
def encodeState (n : Nat) : String := ⟨encodeStateData n⟩

/-- Value of a most-significant-first digit-character list. -/
def msbVal (l : List Char) : Nat := l.foldl (fun a c => a * 10 + digitVal c) 0

/-- Model of `json.Unmarshal` into `State` for documents of the shape the
program writes: on the exact document it returns the stored block number,
on anything else it fails (leaving the zero value to the caller). -/
def parseStateData (l : List Char) : Option Nat :=
  match l with
  | [] => none
  | c :: rest =>
    if c = lbrace then
      if rest.take keyChars.length = keyChars then
        if (rest.drop keyChars.length).takeWhile isDigitChar = [] then none
        else if (rest.drop keyChars.length).dropWhile isDigitChar = [rbrace] then
          some (msbVal ((rest.drop keyChars.length).takeWhile isDigitChar))
        else none
      else none
    else none

/-- String-level entry point of the state-document parser. -/
def parseState (s : String) : Option Nat := parseStateData s.data

/-- What `loadState` extracts from file contents: the parsed value, or the
zero value 0 because the `json.Unmarshal` error is discarded. -/
def decodeState (s : String) : Nat := (parseState s).getD 0

/-! ### Filesystem model and the checkpoint store

The checkpoint store (`resolveStateFile`, `loadState`, `saveState`) works
against the OS filesystem.  We model it as a flat map from path strings to
entries (directory or file contents); `os.MkdirAll` and `os.WriteFile`
update single keys, `os.Stat` and `os.ReadFile` look keys up.  The model
does not enforce parent-directory existence for a write — the Go code
itself ensures parents via `MkdirAll` before every write — and keys are
the literal strings the code passes, which is consistent because the code
always recomputes paths through the same `resolveStateFile`. -/

/-- A filesystem entry: a directory or a file with contents. -/
inductive Entry where
  | dir : Entry
  | file (data : String) : Entry
deriving DecidableEq

/-- Flat filesystem: map from path to entry. -/
abbrev Fs := String → Option Entry

/-- The empty filesystem. -/
def fsEmpty : Fs := fun _ => none

/-- Point update of the filesystem. -/
def Fs.set (fs : Fs) (p : String) (e : Entry) : Fs :=
  fun q => if q = p then some e else fs q

/-- Filesystem operations performed by `saveState`, recorded as a trace so
that the write-in-place versus write-new-then-replace question is
observable. -/
inductive FsOp where
  | mkdir (p : String) : FsOp
  | write (p : String) (data : String) : FsOp
  | rename (src dst : String) : FsOp
deriving DecidableEq

/-- `true` exactly on a file-replace step. -/
def isRename (o : FsOp) : Bool :=
  match o with
  | FsOp.rename _ _ => true
  | _ => false

/-- The path separator. -/
def sepChar : Char := Char.ofNat 47

/-- Drop trailing path separators (the normalization `filepath.Join` /
`filepath.Dir` apply to their inputs). -/
def stripSep (l : List Char) : List Char :=
  (l.reverse.dropWhile (fun c => c = sepChar)).reverse

/-- `true` when the path ends in a separator — the `path[len(path)-1] == '/'`
check in `resolveStateFile`. -/
def endsWithSep (p : String) : Bool := p.data.getLast? = some sepChar

/-- The fixed state file name appended to directory paths. -/
def stateFileName : String := "state.json"

/-- `filepath.Join(path, "state.json")`. -/
def joinDir (p : String) : String := ⟨stripSep p.data⟩ ++ "/" ++ stateFileName

/-- `filepath.Dir`, used by `saveState` to find the parent to create. -/
def dirPath (p : String) : String :=
  if (stripSep p.data).contains sepChar then
    ⟨stripSep ((stripSep p.data).reverse.dropWhile (fun c => !(c = sepChar))).reverse⟩
  else "."

/-- `os.MkdirAll`: fails if the target exists as a file, otherwise records a
directory at the target. -/
def mkdirAll (fs : Fs) (p : String) : Except String Fs :=
  match fs p with
  | some (Entry.file _) => Except.error "mkdir: not a directory"
  | _ => Except.ok (fs.set p Entry.dir)

/-- `resolveStateFile` from the source: stat the configured path; a
directory (or a nonexistent path spelled with a trailing separator, which
is then created) resolves to `state.json` inside it, anything else is used
as the file path itself.  Returns the resolved path, the possibly mutated
filesystem, and the trace of operations performed. -/
def resolveStateFile (fs : Fs) (path : String) : Except String (String × Fs × List FsOp) :=
  match fs path with
  | none =>
    if endsWithSep path then
      match mkdirAll fs path with
      | Except.error e => Except.error e
      | Except.ok fs1 => Except.ok (joinDir path, fs1, [FsOp.mkdir path])
    else Except.ok (path, fs, [])
  | some Entry.dir => Except.ok (joinDir path, fs, [])
  | some (Entry.file _) => Except.ok (path, fs, [])

/-- `os.WriteFile`: fails on a directory, otherwise replaces the contents
in place. -/
def writeFile (fs : Fs) (p : String) (data : String) : Except String Fs :=
  match fs p with
  | some Entry.dir => Except.error "write: is a directory"
  | _ => Except.ok (fs.set p (Entry.file data))

/-- `loadState` from the source: resolve the path, read the file (a missing
file is checkpoint 0, not an error), unmarshal discarding the error. -/
def loadState (fs : Fs) (path : String) : Except String Nat :=
  match resolveStateFile fs path with
  | Except.error e => Except.error e
  | Except.ok (resolved, fs1, _) =>
    match fs1 resolved with
    | none => Except.ok 0
    | some Entry.dir => Except.error "read: is a directory"
    | some (Entry.file data) => Except.ok (decodeState data)

/-- The `if dir := filepath.Dir(resolved); dir != "." && dir != ""` block of
`saveState`: ensure the parent directory of the resolved file exists. -/
def ensureParent (fs : Fs) (resolved : String) (ops : List FsOp) :
    Except String (Fs × List FsOp) :=
  if dirPath resolved = "." ∨ dirPath resolved = "" then Except.ok (fs, ops)
  else
    match mkdirAll fs (dirPath resolved) with
    | Except.error e => Except.error e
    | Except.ok fs2 => Except.ok (fs2, ops ++ [FsOp.mkdir (dirPath resolved)])

/-- `saveState` from the source: resolve the path, ensure the parent
directory, then `os.WriteFile` the serialized state — a single in-place
write of the resolved path. -/
def saveState (fs : Fs) (path : String) (blockNum : Nat) :
    Except String (Fs × List FsOp) :=
  match resolveStateFile fs path with
  | Except.error e => Except.error e
  | Except.ok (resolved, fs1, ops1) =>
    match ensureParent fs1 resolved ops1 with
    | Except.error e => Except.error e
    | Except.ok (fs2, ops2) =>
      match writeFile fs2 resolved (encodeState blockNum) with
      | Except.error e => Except.error e
      | Except.ok fs3 => Except.ok (fs3, ops2 ++ [FsOp.write resolved (encodeState blockNum)])

/-! ### Backoff connector

`ConnectPostgresWithBackoff` attempts `pgxpool.New` plus `Ping` in a loop;
a failed attempt is retried after a sleep that starts at 500ms and doubles
while it is below 5000ms.  We model one loop iteration's pool-creation and
ping as one `ConnectAttempt` (its duration in milliseconds included), and
record the sleeps the loop performs. -/

/-- Outcome of one connection attempt: success, or failure with the observed
error, each taking `dur` milliseconds. -/
inductive ConnectAttempt where
  | ok (dur : Nat) : ConnectAttempt
  | fail (e : String) (dur : Nat) : ConnectAttempt
deriving DecidableEq

/-- The retry loop of `ConnectPostgresWithBackoff`: given the remaining
attempt outcomes, the elapsed time, and the current wait, return the result
(`none` when the modelled attempt list is exhausted before termination)
together with the list of sleeps performed. -/
def backoffRun (maxWait : Nat) :
    List ConnectAttempt → Nat → Nat → Option (Except String Unit) × List Nat
  | [], _, _ => (none, [])
  | ConnectAttempt.ok _ :: _, _, _ => (some (Except.ok ()), [])
  | ConnectAttempt.fail e dur :: rest, elapsed, wait =>
    if maxWait ≤ elapsed + dur then (some (Except.error e), [])
    else
      let r := backoffRun maxWait rest (elapsed + dur + wait)
        (if wait < 5000 then 2 * wait else wait)
      (r.1, wait :: r.2)

/-- `ConnectPostgresWithBackoff`: the loop starts with `wait = 500`
milliseconds and zero elapsed time. -/
def connectPostgresWithBackoff (maxWait : Nat) (attempts : List ConnectAttempt) :
    Option (Except String Unit) × List Nat :=
  backoffRun maxWait attempts 0 500

/-- The sequence of waits the loop uses: 500ms, doubling while below 5000ms. -/
def waitSeq : Nat → Nat
  | 0 => 500
  | n + 1 => if waitSeq n < 5000 then 2 * waitSeq n else waitSeq n

/-! ### Scan engine

`fetchNewTransactions` and the main loop.  The RPC client is an external
collaborator; one tick's view of it is an `RpcEnv`: the `HeaderByNumber`
result, the `NetworkID` result, and the `BlockByNumber` result for every
block number.  Per-transaction sender recovery (`types.Sender`) is part of
the environment as the transaction's optional `sender` field (`none` means
recovery failed and the transaction is skipped). -/

/-- A transaction as the scan loop sees it: hash, the result of sender
recovery, the optional `To` field (`nil` for contract creation), value,
gas, optional gas price, and input data. -/
structure Tx where
  hash : String
  sender : Option Nat
  toField : Option Nat
  value : Nat
  gas : Nat
  gasPrice : Option Nat
  input : String
deriving DecidableEq

/-- A block: its transactions and its timestamp. -/
structure Block where
  txs : List Tx
  time : Nat
deriving DecidableEq

/-- One tick's view of the RPC client. -/
structure RpcEnv where
  header : Except String Nat
  networkId : Except String Nat
  blockAt : Nat → Except String Block

/-- Hex value of one character (0 for non-hex characters). -/
def hexVal (c : Char) : Nat :=
  if 48 ≤ c.toNat ∧ c.toNat ≤ 57 then c.toNat - 48
  else if 97 ≤ c.toNat ∧ c.toNat ≤ 102 then c.toNat - 87
  else if 65 ≤ c.toNat ∧ c.toNat ≤ 70 then c.toNat - 55
  else 0

/-- Strip a leading `0x` / `0X`. -/
def stripHexPrefix (l : List Char) : List Char :=
  match l with
  | '0' :: 'x' :: rest => rest
  | '0' :: 'X' :: rest => rest
  | l => l

/-- Model of `common.HexToAddress`: canonicalize an address string to its
160-bit numeric value (keeping the low 20 bytes, as `BytesToAddress` does).
Addresses are represented as natural numbers below `2 ^ 160`. -/
def hexToAddress (s : String) : Nat :=
  (stripHexPrefix s.data).foldl (fun a c => (a * 16 + hexVal c) % 2 ^ 160) 0

/-- The JSON payload built for a matched transaction (`txData` in the
source); the `gasPrice` nil-check becomes `Option.getD 0`, the missing
`To` becomes the zero address. -/
structure TxData where
  hash : String
  sender : Nat
  recipient : Nat
  value : Nat
  gas : Nat
  gasPrice : Nat
  blockNum : Nat
  timestamp : Nat
  input : String
deriving DecidableEq

/-- Build the dispatch payload for a transaction of a given block. -/
def txDataOf (blockNum time : Nat) (tx : Tx) : TxData :=
  ⟨tx.hash, tx.sender.getD 0, tx.toField.getD 0, tx.value, tx.gas,
    tx.gasPrice.getD 0, blockNum, time, tx.input⟩

/-- The match test of the scan loop: sender recovery must succeed
(`continue` on error), then the sender or the recipient (zero address when
`To` is nil) must be in the watch set. -/
def matchesTx (wset : List Nat) (tx : Tx) : Bool :=
  match tx.sender with
  | none => false
  | some f => wset.contains f || wset.contains (tx.toField.getD 0)

/-- The dispatches one block produces: one `sendToAIAnalyzer` call per
matching transaction, in block order, and none at all when no analyzer URL
is configured. -/
def dispatchesOfBlock (wset : List Nat) (analyzerURL : String) (blockNum : Nat)
    (b : Block) : List TxData :=
  if analyzerURL = "" then []
  else (b.txs.filter (matchesTx wset)).map (txDataOf blockNum b.time)

/-- Result of one `fetchNewTransactions` call: the returned block number,
the returned error, the dispatch calls made, and the blocks for which
`BlockByNumber` was called (in order). -/
structure FetchResult where
  newLast : Nat
  err : Option String
  dispatches : List TxData
  fetched : List Nat
deriving DecidableEq

/-- The block loop of `fetchNewTransactions`: scan `count` blocks starting
at `last + 1`; a failed block fetch aborts the remaining range, returning
the last fully completed block together with the error. -/
def scanLoop (env : RpcEnv) (wset : List Nat) (url : String) :
    Nat → Nat → FetchResult
  | last, 0 => ⟨last, none, [], []⟩
  | last, count + 1 =>
    match env.blockAt (last + 1) with
    | Except.error e => ⟨last, some e, [], [last + 1]⟩
    | Except.ok b =>
      let r := scanLoop env wset url (last + 1) count
      ⟨r.newLast, r.err, dispatchesOfBlock wset url (last + 1) b ++ r.dispatches,
        (last + 1) :: r.fetched⟩

/-- The bootstrap seeding of `fetchNewTransactions`: with no previous state
(`lastBlock == 0`) and a chain height above 1000, start from
`latest - 1000`. -/
def seedLast (lastBlock latest : Nat) : Nat :=
  if lastBlock = 0 ∧ 1000 < latest then latest - 1000 else lastBlock

/-- `fetchNewTransactions` from the source: fetch the height, apply the
bootstrap seeding, return unchanged when already at (or past) the height,
otherwise fetch the network id and scan `lastBlock + 1 .. latest`. -/
def fetchNewTransactions (env : RpcEnv) (wallets : List String) (lastBlock : Nat)
    (analyzerURL : String) : FetchResult :=
  match env.header with
  | Except.error e => ⟨lastBlock, some e, [], []⟩
  | Except.ok latest =>
    if latest ≤ seedLast lastBlock latest then ⟨seedLast lastBlock latest, none, [], []⟩
    else
      match env.networkId with
      | Except.error e => ⟨seedLast lastBlock latest, some e, [], []⟩
      | Except.ok _ =>
        scanLoop env (wallets.map hexToAddress) analyzerURL (seedLast lastBlock latest)
          (latest - seedLast lastBlock latest)

/-- The per-tick wallet-source decision in `main`: prefer the registry when
it is present, its query succeeds, and the result is non-empty; otherwise
fall back to the configured wallet list. -/
def selectWallets (cfgWallets : List String)
    (registry : Option (Except String (List String))) : List String :=
  match registry with
  | some (Except.ok w) => if w.isEmpty then cfgWallets else w
  | _ => cfgWallets

/-- One tick's environment: the RPC view, the registry view (`none` when no
database pool is available), and whether the checkpoint write succeeds. -/
structure TickEnv where
  rpc : RpcEnv
  registry : Option (Except String (List String))
  saveOk : Bool

/-- The main loop's state: the in-memory `lastBlock` and the value held by
the persisted checkpoint file. -/
structure LoopState where
  mem : Nat
  persisted : Nat
deriving DecidableEq

/-- Observable outcome of one tick: the successor state, the value passed to
`saveState` (if any), the blocks fetched, the dispatches made, and the
wallet list used for matching. -/
structure TickOut where
  state : LoopState
  save : Option Nat
  fetched : List Nat
  dispatches : List TxData
  walletsUsed : List String
deriving DecidableEq

/-- The tail of the loop body: given the fetch result, save and advance only
when there is no error and the returned block is strictly larger. -/
def applyFetch (s : LoopState) (saveOk : Bool) (r : FetchResult)
    (wallets : List String) : TickOut :=
  match r.err with
  | some _ => ⟨s, none, r.fetched, r.dispatches, wallets⟩
  | none =>
    if s.mem < r.newLast then
      ⟨⟨r.newLast, if saveOk then r.newLast else s.persisted⟩, some r.newLast,
        r.fetched, r.dispatches, wallets⟩
    else ⟨s, none, r.fetched, r.dispatches, wallets⟩

/-- One iteration of the main monitoring loop: choose the wallet source,
fetch, and persist progress on success. -/
def tick (cfgWallets : List String) (url : String) (env : TickEnv) (s : LoopState) :
    TickOut :=
  applyFetch s env.saveOk
    (fetchNewTransactions env.rpc (selectWallets cfgWallets env.registry) s.mem url)
    (selectWallets cfgWallets env.registry)

/-- Run a sequence of ticks, collecting the values passed to `saveState`. -/
def runTicks (cfgWallets : List String) (url : String) :
    List TickEnv → LoopState → LoopState × List Nat
  | [], s => (s, [])
  | e :: es, s =>
    let t := tick cfgWallets url e s
    let r := runTicks cfgWallets url es t.state
    (r.1, t.save.toList ++ r.2)

/-! ### Concrete instances used by witnesses and counterexamples -/

/-- A block with no transactions. -/
def emptyBlock : Block := ⟨[], 0⟩

/-- An RPC view whose height is `h` and whose every block is empty. -/
def rpcAllOk (h : Nat) : RpcEnv := ⟨Except.ok h, Except.ok 1, fun _ => Except.ok emptyBlock⟩

/-- Tick environment for the partial-failure scenario: height 110, blocks up
to 103 retrievable, block 104 (and beyond) failing. -/
def envC1 : TickEnv :=
  ⟨⟨Except.ok 110, Except.ok 1,
    fun bn => if bn ≤ 103 then Except.ok ⟨[], 7⟩ else Except.error "rpc: block fetch failed"⟩,
    none, true⟩

/-- RPC view with chain height 5000. -/
def envHeight5000 : RpcEnv := rpcAllOk 5000

/-- RPC view with chain height 500. -/
def envHeight500 : RpcEnv := rpcAllOk 500

/-- A small all-success tick environment of height 5 with no registry. -/
def envTiny : TickEnv := ⟨rpcAllOk 5, none, true⟩

/-- A tick environment whose registry answers with one address. -/
def envRegistryOk : TickEnv := ⟨rpcAllOk 0, some (Except.ok ["0xaa"]), true⟩

/-- A transaction with watched sender 5 and unwatched recipient 7. -/
def txDemo : Tx := ⟨"0xhash", some 5, some 7, 100, 21000, some 3, "deadbeef"⟩

/-- A one-transaction block. -/
def blockDemo : Block := ⟨[txDemo], 9⟩

/-- Six consecutive connection failures of negligible duration. -/
def attemptsDemo : List ConnectAttempt :=
  List.replicate 6 (ConnectAttempt.fail "connection refused" 0)

/-- The filesystem after saving 12345 at `state.json` into an empty tree. -/
def fsDemo : Fs := Fs.set fsEmpty "state.json" (Entry.file (encodeState 12345))

/-- A filesystem whose `state.json` holds contents that are not a valid
state document. -/
def fsGarbage : Fs := Fs.set fsEmpty "state.json" (Entry.file "not json")

/-- The filesystem after saving 5 at `state.json` into an empty tree. -/
def fsAfterDemoSave : Fs := Fs.set fsEmpty "state.json" (Entry.file (encodeState 5))

/-- The operation trace of that save. -/
def opsDemo : List FsOp := [FsOp.write "state.json" (encodeState 5)]

/-! ### Lemmas: digits and state-document roundtrip -/

lemma natDigitsAux_spec : ∀ fuel n, n ≤ fuel → Nat.ofDigits 10 (natDigitsAux fuel n) = n := by
  intro fuel
  induction fuel with
  | zero =>
    intro n hn
    interval_cases n
    simp [natDigitsAux]
  | succ f ih =>
    intro n hn
    cases n with
    | zero => simp [natDigitsAux]
    | succ m =>
      have hdiv : (m + 1) / 10 ≤ f := by
        have h1 : (m + 1) / 10 < m + 1 := Nat.div_lt_self (Nat.succ_pos m) (by norm_num)
        omega
      simp only [natDigitsAux, Nat.ofDigits_cons, ih _ hdiv]
      omega

lemma natDigitsAux_lt : ∀ fuel n d, d ∈ natDigitsAux fuel n → d < 10 := by
  intro fuel
  induction fuel with
  | zero => intro n d hd; simp [natDigitsAux] at hd
  | succ f ih =>
    intro n d hd
    cases n with
    | zero => simp [natDigitsAux] at hd
    | succ m =>
      simp only [natDigitsAux, List.mem_cons] at hd
      rcases hd with h | h
      · subst h; exact Nat.mod_lt _ (by norm_num)
      · exact ih _ _ h

lemma natDigits_ne_nil {n : Nat} (hn : n ≠ 0) : natDigits n ≠ [] := by
  cases n with
  | zero => exact absurd rfl hn
  | succ m => simp [natDigits, natDigitsAux]

lemma digitChar_toNat {d : Nat} (hd : d < 10) : (digitChar d).toNat = 48 + d := by
  interval_cases d <;> decide

lemma isDigitChar_digitChar {d : Nat} (hd : d < 10) : isDigitChar (digitChar d) = true := by
  simp only [isDigitChar, digitChar_toNat hd, Bool.and_eq_true, decide_eq_true_eq]
  omega

lemma digitVal_digitChar {d : Nat} (hd : d < 10) : digitVal (digitChar d) = d := by
  simp [digitVal, digitChar_toNat hd]

lemma takeWhile_all_append {p : Char → Bool} {l : List Char} {x : Char}
    (hl : ∀ c ∈ l, p c = true) (hx : p x = false) :
    (l ++ [x]).takeWhile p = l ∧ (l ++ [x]).dropWhile p = [x] := by
  induction l with
  | nil => simp [List.takeWhile, List.dropWhile, hx]
  | cons c t ih =>
    have hc : p c = true := hl c (by simp)
    have ht : ∀ y ∈ t, p y = true := fun y hy => hl y (by simp [hy])
    obtain ⟨h1, h2⟩ := ih ht
    constructor
    · simpa [List.takeWhile_cons, hc] using h1
    · simpa [List.dropWhile_cons, hc] using h2

lemma msbVal_digits (ds : List Nat) (h : ∀ d ∈ ds, d < 10) :
    msbVal ((ds.map digitChar).reverse) = Nat.ofDigits 10 ds := by
  induction ds with
  | nil => simp [msbVal, Nat.ofDigits]
  | cons d t ih =>
    have hd : d < 10 := h d (by simp)
    have ht : ∀ x ∈ t, x < 10 := fun x hx => h x (by simp [hx])
    have step : msbVal ((t.map digitChar).reverse ++ [digitChar d]) =
        msbVal ((t.map digitChar).reverse) * 10 + d := by
      simp [msbVal, List.foldl_append, digitVal_digitChar hd]
    simp only [List.map_cons, List.reverse_cons, step, ih ht, Nat.ofDigits_cons]
    omega

lemma natChars_all_digits (n : Nat) : ∀ c ∈ natChars n, isDigitChar c = true := by
  intro c hc
  unfold natChars at hc
  split at hc
  · simp only [List.mem_singleton] at hc
    subst hc
    exact isDigitChar_digitChar (by norm_num)
  · simp only [List.mem_reverse, List.mem_map] at hc
    obtain ⟨d, hd, rfl⟩ := hc
    exact isDigitChar_digitChar (natDigitsAux_lt _ _ _ hd)

lemma natChars_ne_nil (n : Nat) : natChars n ≠ [] := by
  unfold natChars
  split
  · simp
  · next hn =>
    simp only [ne_eq, List.reverse_eq_nil_iff, List.map_eq_nil_iff]
    exact natDigits_ne_nil hn

lemma msbVal_natChars (n : Nat) : msbVal (natChars n) = n := by
  unfold natChars
  split
  · next hn => subst hn; decide
  · rw [msbVal_digits (natDigits n) (fun d hd => natDigitsAux_lt n n d hd)]
    exact natDigitsAux_spec n n le_rfl

lemma rbrace_not_digit : isDigitChar rbrace = false := by decide

lemma parseState_encodeState (n : Nat) : parseState (encodeState n) = some n := by
  obtain ⟨htake, hdrop⟩ :=
    takeWhile_all_append (natChars_all_digits n) rbrace_not_digit
  have hdata : (encodeState n).data = lbrace :: (keyChars ++ (natChars n ++ [rbrace])) := by
    show encodeStateData n = _
    simp [encodeStateData, List.append_assoc]
  rw [parseState, hdata]
  simp only [parseStateData, if_pos rfl, List.take_left, List.drop_left, htake, hdrop]
  rw [if_neg (natChars_ne_nil n)]
  simp [msbVal_natChars]

lemma decodeState_encodeState (n : Nat) : decodeState (encodeState n) = n := by
  simp [decodeState, parseState_encodeState]

/-! ### Lemmas: the checkpoint store -/

lemma stripSep_eq_of_getLast_ne {l : List Char} (h : l.getLast? ≠ some sepChar) :
    stripSep l = l := by
  unfold stripSep
  cases hrev : l.reverse with
  | nil =>
    have : l = [] := by simpa using congrArg List.reverse hrev
    simp [this]
  | cons c t =>
    have hc : c ≠ sepChar := by
      intro hcs
      apply h
      rw [← List.head?_reverse, hrev, hcs]
      rfl
    rw [List.dropWhile_cons, if_neg (by simp [hc]), ← hrev, List.reverse_reverse]

lemma getLast?_stripped {l : List Char} (h : stripSep l ≠ l) :
    l.getLast? = some sepChar := by
  by_contra hne
  exact h (stripSep_eq_of_getLast_ne hne)

/-- The configured path is never the same string as the `state.json` path
joined under it. -/
lemma ne_joinDir (p : String) : p ≠ joinDir p := by
  intro h
  have hdata : p.data = stripSep p.data ++ ('/' :: stateFileName.data) := by
    have := congrArg String.data h
    simpa [joinDir, String.data_append] using this
  by_cases hs : stripSep p.data = p.data
  · rw [hs] at hdata
    have := congrArg List.length hdata
    simp [stateFileName] at this
  · have hlast : p.data.getLast? = some sepChar := getLast?_stripped hs
    have hlast2 : p.data.getLast? = some 'n' := by
      rw [hdata]
      rw [List.getLast?_append_of_ne_nil]
      · show (('/' : Char) :: stateFileName.data).getLast? = some 'n'
        decide
      · decide
    rw [hlast] at hlast2
    simp [sepChar] at hlast2

lemma mkdirAll_ok {fs : Fs} {p : String} {g : Fs} (h : mkdirAll fs p = Except.ok g) :
    g = fs.set p Entry.dir := by
  unfold mkdirAll at h
  split at h
  · exact absurd h (by simp)
  · exact (Except.ok.injEq _ _ ▸ h).symm

lemma writeFile_ok {fs : Fs} {p data : String} {g : Fs}
    (h : writeFile fs p data = Except.ok g) :
    g = fs.set p (Entry.file data) := by
  unfold writeFile at h
  split at h
  · exact absurd h (by simp)
  · exact (Except.ok.injEq _ _ ▸ h).symm

lemma ensureParent_ok {fs : Fs} {rp : String} {ops : List FsOp} {fs2 : Fs} {ops2 : List FsOp}
    (h : ensureParent fs rp ops = Except.ok (fs2, ops2)) :
    (fs2 = fs ∧ ops2 = ops) ∨
      (fs2 = fs.set (dirPath rp) Entry.dir ∧ ops2 = ops ++ [FsOp.mkdir (dirPath rp)]) := by
  unfold ensureParent at h
  split at h
  · left
    simp only [Except.ok.injEq, Prod.mk.injEq] at h
    exact ⟨h.1.symm, h.2.symm⟩
  · split at h
    · exact absurd h (by simp)
    · next fs2' heq =>
      right
      simp only [Except.ok.injEq, Prod.mk.injEq] at h
      refine ⟨?_, h.2.symm⟩
      rw [← h.1, mkdirAll_ok heq]

lemma resolveStateFile_ok {fs : Fs} {path rp : String} {fs1 : Fs} {ops1 : List FsOp}
    (h : resolveStateFile fs path = Except.ok (rp, fs1, ops1)) :
    (fs path = none ∧ rp = joinDir path ∧ fs1 = fs.set path Entry.dir ∧ ops1 = [FsOp.mkdir path])
    ∨ (fs path = none ∧ rp = path ∧ fs1 = fs ∧ ops1 = [])
    ∨ (fs path = some Entry.dir ∧ rp = joinDir path ∧ fs1 = fs ∧ ops1 = [])
    ∨ (∃ s, fs path = some (Entry.file s) ∧ rp = path ∧ fs1 = fs ∧ ops1 = []) := by
  unfold resolveStateFile at h
  split at h
  · next hstat =>
    split at h
    · rw [mkdirAll] at h
      rw [hstat] at h
      simp only [Except.ok.injEq, Prod.mk.injEq] at h
      left
      exact ⟨hstat, h.1.symm, h.2.1.symm, h.2.2.symm⟩
    · simp only [Except.ok.injEq, Prod.mk.injEq] at h
      right; left
      exact ⟨hstat, h.1.symm, h.2.1.symm, h.2.2.symm⟩
  · next hstat =>
    simp only [Except.ok.injEq, Prod.mk.injEq] at h
    right; right; left
    exact ⟨hstat, h.1.symm, h.2.1.symm, h.2.2.symm⟩
  · next s hstat =>
    simp only [Except.ok.injEq, Prod.mk.injEq] at h
    right; right; right
    exact ⟨s, hstat, h.1.symm, h.2.1.symm, h.2.2.symm⟩

/-- Decomposition of a successful `saveState`: the resolved path, the
intermediate filesystems, the final filesystem (the in-place write of the
serialized state at the resolved path), and the operation trace. -/
lemma saveState_ok {fs : Fs} {path : String} {n : Nat} {fs' : Fs} {ops : List FsOp}
    (h : saveState fs path n = Except.ok (fs', ops)) :
    ∃ rp fs1 ops1 fs2 ops2,
      resolveStateFile fs path = Except.ok (rp, fs1, ops1) ∧
      ensureParent fs1 rp ops1 = Except.ok (fs2, ops2) ∧
      fs' = fs2.set rp (Entry.file (encodeState n)) ∧
      ops = ops2 ++ [FsOp.write rp (encodeState n)] := by
  unfold saveState at h
  split at h
  · exact absurd h (by simp)
  · next rp fs1 ops1 hres =>
    split at h
    · exact absurd h (by simp)
    · next fs2 ops2 hep =>
      split at h
      · exact absurd h (by simp)
      · next fs3 hw =>
        simp only [Except.ok.injEq, Prod.mk.injEq] at h
        refine ⟨rp, fs1, ops1, fs2, ops2, hres, hep, ?_, h.2.symm⟩
        rw [← h.1, writeFile_ok hw]

lemma loadState_after_save {fs : Fs} {path : String} {n : Nat} {fs' : Fs} {ops : List FsOp}
    (h : saveState fs path n = Except.ok (fs', ops)) :
    loadState fs' path = Except.ok n := by
  obtain ⟨rp, fs1, ops1, fs2, ops2, hres, hep, hfs', hops⟩ := saveState_ok h
  have hne : path ≠ joinDir path := ne_joinDir path
  rcases resolveStateFile_ok hres with ⟨hstat, hrp, hfs1, -⟩ | ⟨hstat, hrp, hfs1, -⟩ |
    ⟨hstat, hrp, hfs1, -⟩ | ⟨s, hstat, hrp, hfs1, -⟩
  · -- path did not exist and was created as a directory; resolved is state.json inside it
    have hdir : fs' path = some Entry.dir := by
      rw [hfs']
      unfold Fs.set
      rw [if_neg (by rw [hrp]; exact hne)]
      rcases ensureParent_ok hep with ⟨h2, -⟩ | ⟨h2, -⟩
      · rw [h2, hfs1]; unfold Fs.set; rw [if_pos rfl]
      · rw [h2]
        unfold Fs.set
        by_cases hpd : path = dirPath rp
        · rw [if_pos hpd]
        · rw [if_neg hpd, hfs1]; unfold Fs.set; rw [if_pos rfl]
    have hfile : fs' (joinDir path) = some (Entry.file (encodeState n)) := by
      rw [hfs', ← hrp]
      unfold Fs.set
      rw [if_pos rfl]
    simp only [loadState, resolveStateFile, hdir, hfile, decodeState_encodeState]
  · -- path did not exist and is used as the file itself
    have hfile : fs' path = some (Entry.file (encodeState n)) := by
      rw [hfs', hrp]
      unfold Fs.set
      rw [if_pos rfl]
    simp only [loadState, resolveStateFile, hfile, decodeState_encodeState]
  · -- path exists as a directory; resolved is state.json inside it
    have hdir : fs' path = some Entry.dir := by
      rw [hfs']
      unfold Fs.set
      rw [if_neg (by rw [hrp]; exact hne)]
      rcases ensureParent_ok hep with ⟨h2, -⟩ | ⟨h2, -⟩
      · rw [h2, hfs1]; exact hstat
      · rw [h2]
        unfold Fs.set
        by_cases hpd : path = dirPath rp
        · rw [if_pos hpd]
        · rw [if_neg hpd, hfs1]; exact hstat
    have hfile : fs' (joinDir path) = some (Entry.file (encodeState n)) := by
      rw [hfs', ← hrp]
      unfold Fs.set
      rw [if_pos rfl]
    simp only [loadState, resolveStateFile, hdir, hfile, decodeState_encodeState]
  · -- path exists as a file and is overwritten in place
    have hfile : fs' path = some (Entry.file (encodeState n)) := by
      rw [hfs', hrp]
      unfold Fs.set
      rw [if_pos rfl]
    simp only [loadState, resolveStateFile, hfile, decodeState_encodeState]

/-! ### Claim C4 -/

/-- C4: for every block number `n` and every state path, a successful
`saveState` followed by `loadState` on the same path returns exactly `n`;
and when the resolved state file does not exist, `loadState` returns 0
without error. -/
theorem spec_c4_checkpoint_roundtrip :
    (∀ (fs : Fs) (path : String) (n : Nat) (fs' : Fs) (ops : List FsOp),
      saveState fs path n = Except.ok (fs', ops) → loadState fs' path = Except.ok n)
    ∧ (∀ (fs : Fs) (path rp : String) (fs1 : Fs) (ops1 : List FsOp),
      resolveStateFile fs path = Except.ok (rp, fs1, ops1) → fs1 rp = none →
      loadState fs path = Except.ok 0) := by
  constructor
  · intro fs path n fs' ops h
    exact loadState_after_save h
  · intro fs path rp fs1 ops1 hres hmiss
    simp only [loadState, hres, hmiss]

/-- Witness for C4: saving 12345 into an empty tree at `state.json` and
loading it back yields 12345; loading from the empty tree yields 0. -/
theorem spec_c4_witness :
    loadState fsDemo "state.json" = Except.ok 12345 ∧
    loadState fsEmpty "state.json" = Except.ok 0 :=
  ⟨spec_c4_checkpoint_roundtrip.1 fsEmpty "state.json" 12345 fsDemo
      [FsOp.write "state.json" (encodeState 12345)] (by rfl),
    spec_c4_checkpoint_roundtrip.2 fsEmpty "state.json" "state.json" fsEmpty [] (by rfl) (by rfl)⟩

/-! ### Claim C6 -/

/-- C6 counterexample: saving checkpoint 5 at `state.json` in an empty tree
performs exactly one direct `WriteFile` of the state path itself — the
trace contains no rename/replace step, so the save is write-in-place, not
write-new-then-replace. -/
theorem spec_c6_counterexample :
    saveState fsEmpty "state.json" 5 = Except.ok (fsAfterDemoSave, opsDemo) ∧
    opsDemo = [FsOp.write "state.json" (encodeState 5)] ∧
    opsDemo.any isRename = false := by
  refine ⟨by rfl, by rfl, by rfl⟩

/-- C6 amended: every successful `saveState` performs directory creations
followed by a single in-place `WriteFile` of the resolved state path (the
same path `loadState` reads); no write-new-then-replace step exists, so
atomicity with respect to concurrent readers is not established. -/
theorem spec_c6_save_in_place :
    ∀ (fs : Fs) (path : String) (n : Nat) (fs' : Fs) (ops : List FsOp),
      saveState fs path n = Except.ok (fs', ops) →
      (∀ a b, FsOp.rename a b ∉ ops) ∧
      ∃ rp fs1 ops1 pre,
        resolveStateFile fs path = Except.ok (rp, fs1, ops1) ∧
        ops = pre ++ [FsOp.write rp (encodeState n)] ∧
        ∀ o ∈ pre, ∃ q, o = FsOp.mkdir q := by
  intro fs path n fs' ops h
  obtain ⟨rp, fs1, ops1, fs2, ops2, hres, hep, -, hops⟩ := saveState_ok h
  have hops1 : ops1 = [] ∨ ops1 = [FsOp.mkdir path] := by
    rcases resolveStateFile_ok hres with ⟨-, -, -, h1⟩ | ⟨-, -, -, h1⟩ |
      ⟨-, -, -, h1⟩ | ⟨s, -, -, -, h1⟩ <;> simp [h1]
  have hpre : ∀ o ∈ ops2, ∃ q, o = FsOp.mkdir q := by
    rcases ensureParent_ok hep with ⟨-, h2⟩ | ⟨-, h2⟩ <;>
      rcases hops1 with h1 | h1 <;>
        subst h2 <;> subst h1 <;> intro o ho <;> simp at ho
    · exact ⟨path, ho⟩
    · exact ⟨dirPath rp, ho⟩
    · rcases ho with ho | ho
      · exact ⟨path, ho⟩
      · exact ⟨dirPath rp, ho⟩
  refine ⟨?_, rp, fs1, ops1, ops2, hres, hops, hpre⟩
  intro a b hmem
  rw [hops] at hmem
  rcases List.mem_append.1 hmem with hm | hm
  · obtain ⟨q, hq⟩ := hpre _ hm
    exact absurd hq (by simp)
  · simp at hm

/-- Witness for C6 (amended): the trace of the demonstration save contains
no rename. -/
theorem spec_c6_witness : FsOp.rename "a" "b" ∉ opsDemo :=
  (spec_c6_save_in_place fsEmpty "state.json" 5 fsAfterDemoSave opsDemo (by rfl)).1 "a" "b"

/-! ### Claim C10 -/

/-- C10: when the state file exists but its contents are not a valid state
document, `loadState` returns 0 with no error — the `json.Unmarshal` error
is discarded and the zero value is used silently. -/
theorem spec_c10_invalid_state_silent :
    ∀ (fs : Fs) (path rp : String) (fs1 : Fs) (ops1 : List FsOp) (data : String),
      resolveStateFile fs path = Except.ok (rp, fs1, ops1) →
      fs1 rp = some (Entry.file data) → parseState data = none →
      loadState fs path = Except.ok 0 := by
  intro fs path rp fs1 ops1 data hres hfile hparse
  simp only [loadState, hres, hfile, decodeState, hparse, Option.getD_none]

/-- Witness for C10: a `state.json` holding `not json` loads as checkpoint 0
with no error. -/
theorem spec_c10_witness : loadState fsGarbage "state.json" = Except.ok 0 :=
  spec_c10_invalid_state_silent fsGarbage "state.json" "state.json" fsGarbage [] "not json"
    (by rfl) (by rfl) (by rfl)

/-! ### Lemmas: backoff connector -/

lemma waitSeq_succ (n : Nat) :
    waitSeq (n + 1) = if waitSeq n < 5000 then 2 * waitSeq n else waitSeq n := rfl

lemma waitSeq_values (n : Nat) :
    waitSeq n = 500 ∨ waitSeq n = 1000 ∨ waitSeq n = 2000 ∨ waitSeq n = 4000 ∨
      waitSeq n = 8000 := by
  induction n with
  | zero => left; rfl
  | succ m ih =>
    rw [waitSeq_succ]
    rcases ih with h | h | h | h | h <;> rw [h] <;> norm_num

lemma backoffRun_sleeps (maxWait : Nat) :
    ∀ (attempts : List ConnectAttempt) (elapsed k : Nat),
      (backoffRun maxWait attempts elapsed (waitSeq k)).2 =
        (List.range' k (backoffRun maxWait attempts elapsed (waitSeq k)).2.length).map
          waitSeq := by
  intro attempts
  induction attempts with
  | nil => intro elapsed k; simp [backoffRun]
  | cons a rest ih =>
    intro elapsed k
    cases a with
    | ok dur => simp [backoffRun]
    | fail e dur =>
      by_cases ht : maxWait ≤ elapsed + dur
      · simp [backoffRun, ht]
      · simp only [backoffRun, if_neg ht, ← waitSeq_succ]
        rw [ih (elapsed + dur + waitSeq k) (k + 1)]
        simp [List.range'_succ]

lemma backoffRun_last_error (maxWait : Nat) :
    ∀ (attempts : List ConnectAttempt) (elapsed wait : Nat) (e : String),
      (backoffRun maxWait attempts elapsed wait).1 = some (Except.error e) →
      ∃ k dur, attempts.get? k = some (ConnectAttempt.fail e dur) ∧
        ∀ j, j < k → ∃ e2 d2, attempts.get? j = some (ConnectAttempt.fail e2 d2) := by
  intro attempts
  induction attempts with
  | nil => intro elapsed wait e h; simp [backoffRun] at h
  | cons a rest ih =>
    intro elapsed wait e h
    cases a with
    | ok dur => simp [backoffRun] at h
    | fail e0 dur =>
      by_cases ht : maxWait ≤ elapsed + dur
      · simp only [backoffRun, if_pos ht, Option.some.injEq, Except.error.injEq] at h
        subst h
        exact ⟨0, dur, rfl, fun j hj => absurd hj (Nat.not_lt_zero j)⟩
      · simp only [backoffRun, if_neg ht] at h
        obtain ⟨k, d, hk, hbefore⟩ := ih _ _ _ h
        refine ⟨k + 1, d, hk, ?_⟩
        intro j hj
        cases j with
        | zero => exact ⟨e0, dur, rfl⟩
        | succ j0 => exact hbefore j0 (Nat.lt_of_succ_lt_succ hj)

/-! ### Claim C5 -/

/-- C5 counterexample: with six consecutive failures and a large deadline
the loop sleeps 8000ms between attempts — a delay above the claimed 5s cap,
because the doubling check runs before the cap is reached (4000ms doubles
to 8000ms). -/
theorem spec_c5_counterexample :
    (connectPostgresWithBackoff 1000000 attemptsDemo).2 =
      [500, 1000, 2000, 4000, 8000, 8000] ∧
    8000 ∈ (connectPostgresWithBackoff 1000000 attemptsDemo).2 ∧
    ¬ (8000 ≤ 5000) := by
  refine ⟨by rfl, by decide, by decide⟩

/-- C5 amended: for every failing target the delays between attempts follow
`waitSeq` — 500ms, doubling while below 5000ms, hence never above 8000ms
(not 5000ms) — and once the cumulative elapsed time reaches or exceeds
`maxWait` after a failed attempt, the connector returns that attempt's
error, which is the last observed one (every earlier attempt also failed). -/
theorem spec_c5_backoff :
    (∀ (maxWait : Nat) (attempts : List ConnectAttempt),
      (connectPostgresWithBackoff maxWait attempts).2 =
        (List.range (connectPostgresWithBackoff maxWait attempts).2.length).map waitSeq)
    ∧ (∀ n, waitSeq n ≤ 8000)
    ∧ (∀ (maxWait : Nat) (attempts : List ConnectAttempt) (e : String),
      (connectPostgresWithBackoff maxWait attempts).1 = some (Except.error e) →
      ∃ k dur, attempts.get? k = some (ConnectAttempt.fail e dur) ∧
        ∀ j, j < k → ∃ e2 d2, attempts.get? j = some (ConnectAttempt.fail e2 d2))
    ∧ (∀ (maxWait : Nat) (attempts : List ConnectAttempt) (e : String),
      (connectPostgresWithBackoff maxWait attempts).1 = some (Except.error e) →
      0 < attempts.length) := by
  refine ⟨?_, ?_, ?_, ?_⟩
  · intro maxWait attempts
    have h := backoffRun_sleeps maxWait attempts 0 0
    rw [List.range_eq_range']
    exact h
  · intro n
    rcases waitSeq_values n with h | h | h | h | h <;> rw [h] <;> norm_num
  · intro maxWait attempts e h
    exact backoffRun_last_error maxWait attempts 0 500 e h
  · intro maxWait attempts e h
    cases attempts with
    | nil => simp [connectPostgresWithBackoff, backoffRun] at h
    | cons a rest => simp

/-- Witness for C5 (amended): a concrete timed-out run returns the last
observed error, and its sleeps follow `waitSeq`. -/
theorem spec_c5_witness :
    0 < attemptsDemo.length ∧ waitSeq 4 ≤ 8000 :=
  ⟨spec_c5_backoff.2.2.2 1000 attemptsDemo "connection refused" (by rfl),
    spec_c5_backoff.2.1 4⟩

/-! ### Lemmas: scan engine -/

lemma seedLast_of_le {lastBlock h : Nat} (h2 : h ≤ lastBlock) :
    seedLast lastBlock h = lastBlock := by
  unfold seedLast
  split
  · next hc => omega
  · rfl

/-- An up-to-date checkpoint makes `fetchNewTransactions` return it
unchanged with no error, no block fetch, and no dispatch. -/
lemma fetch_noop {env : RpcEnv} {w : List String} {lastBlock : Nat} {url : String}
    {h : Nat} (h1 : env.header = Except.ok h) (h2 : h ≤ lastBlock) :
    fetchNewTransactions env w lastBlock url = ⟨lastBlock, none, [], []⟩ := by
  simp only [fetchNewTransactions, h1, seedLast_of_le h2, if_pos h2]

lemma scanLoop_fetched_head (env : RpcEnv) (wset : List Nat) (url : String)
    (last count : Nat) (h : 0 < count) :
    (scanLoop env wset url last count).fetched.head? = some (last + 1) := by
  cases count with
  | zero => exact absurd h (lt_irrefl 0)
  | succ c =>
    cases hb : env.blockAt (last + 1) with
    | error e => simp [scanLoop, hb]
    | ok b => simp [scanLoop, hb]

/-- A failed fetch of block `last + k + 1` after `k` successful blocks
makes the scan loop return `last + k` — the last fully completed block —
together with the error. -/
lemma scanLoop_err (env : RpcEnv) (wset : List Nat) (url : String) (e : String) :
    ∀ (count last k : Nat), k < count →
      (∀ j, 1 ≤ j → j ≤ k → ∃ b, env.blockAt (last + j) = Except.ok b) →
      env.blockAt (last + k + 1) = Except.error e →
      (scanLoop env wset url last count).newLast = last + k ∧
      (scanLoop env wset url last count).err = some e := by
  intro count
  induction count with
  | zero => intro last k hk; exact absurd hk (Nat.not_lt_zero k)
  | succ c ih =>
    intro last k hk hok herr
    cases k with
    | zero =>
      have herr1 : env.blockAt (last + 1) = Except.error e := by
        rw [show last + 1 = last + 0 + 1 by omega]
        exact herr
      simp [scanLoop, herr1]
    | succ k0 =>
      obtain ⟨b, hb⟩ := hok 1 (le_refl 1) (by omega)
      have hb1 : env.blockAt (last + 1) = Except.ok b := hb
      have hok2 : ∀ j, 1 ≤ j → j ≤ k0 → ∃ b2, env.blockAt (last + 1 + j) = Except.ok b2 := by
        intro j hj1 hj2
        obtain ⟨b2, hb2⟩ := hok (j + 1) (by omega) (by omega)
        refine ⟨b2, ?_⟩
        rw [show last + 1 + j = last + (j + 1) by omega]
        exact hb2
      have herr2 : env.blockAt (last + 1 + k0 + 1) = Except.error e := by
        rw [show last + 1 + k0 + 1 = last + (k0 + 1) + 1 by omega]
        exact herr
      have ihres := ih (last + 1) k0 (by omega) hok2 herr2
      simp only [scanLoop, hb1]
      refine ⟨?_, ihres.2⟩
      rw [ihres.1]
      omega

lemma scanLoop_fetched_gt (env : RpcEnv) (wset : List Nat) (url : String) :
    ∀ (count last x : Nat), x ∈ (scanLoop env wset url last count).fetched → last < x := by
  intro count
  induction count with
  | zero => intro last x hx; simp [scanLoop] at hx
  | succ c ih =>
    intro last x hx
    cases hb : env.blockAt (last + 1) with
    | error e =>
      simp [scanLoop, hb] at hx
      omega
    | ok b =>
      simp only [scanLoop, hb, List.mem_cons] at hx
      rcases hx with hx | hx
      · omega
      · have := ih (last + 1) x hx
        omega

lemma scanLoop_fetched_nodup (env : RpcEnv) (wset : List Nat) (url : String) :
    ∀ (count last : Nat), (scanLoop env wset url last count).fetched.Nodup := by
  intro count
  induction count with
  | zero => intro last; simp [scanLoop]
  | succ c ih =>
    intro last
    cases hb : env.blockAt (last + 1) with
    | error e => simp [scanLoop, hb]
    | ok b =>
      simp only [scanLoop, hb, List.nodup_cons]
      refine ⟨fun hmem => ?_, ih (last + 1)⟩
      have := scanLoop_fetched_gt env wset url c (last + 1) (last + 1) hmem
      omega

lemma applyFetch_walletsUsed (s : LoopState) (sOk : Bool) (r : FetchResult)
    (w : List String) : (applyFetch s sOk r w).walletsUsed = w := by
  rcases r with ⟨nl, err, d, f⟩
  cases err with
  | none =>
    unfold applyFetch
    dsimp only
    split <;> rfl
  | some e => rfl

lemma applyFetch_err (s : LoopState) (sOk : Bool) (r : FetchResult) (w : List String)
    (e : String) (h : r.err = some e) :
    applyFetch s sOk r w = ⟨s, none, r.fetched, r.dispatches, w⟩ := by
  rcases r with ⟨nl, err, d, f⟩
  dsimp only at h
  subst h
  rfl

lemma applyFetch_spec (s : LoopState) (sOk : Bool) (r : FetchResult) (w : List String) :
    ((applyFetch s sOk r w).save = none ∧ (applyFetch s sOk r w).state = s) ∨
    ((applyFetch s sOk r w).save = some r.newLast ∧ s.mem < r.newLast ∧
      (applyFetch s sOk r w).state.mem = r.newLast ∧
      ((applyFetch s sOk r w).state.persisted = r.newLast ∨
        (applyFetch s sOk r w).state.persisted = s.persisted)) := by
  rcases r with ⟨nl, err, d, f⟩
  cases err with
  | none =>
    unfold applyFetch
    dsimp only
    by_cases hlt : s.mem < nl
    · right
      rw [if_pos hlt]
      refine ⟨rfl, hlt, rfl, ?_⟩
      cases sOk
      · right; rfl
      · left; rfl
    · left
      rw [if_neg hlt]
      exact ⟨rfl, rfl⟩
  | some e => left; exact ⟨rfl, rfl⟩

/-! ### Claim C9 -/

/-- C9: a tick whose checkpoint already equals or exceeds the chain height
is a no-op: no block is fetched, no dispatch is made, nothing is saved,
and the state is unchanged. -/
theorem spec_c9_noop :
    ∀ (cfg : List String) (url : String) (env : TickEnv) (s : LoopState) (h : Nat),
      env.rpc.header = Except.ok h → h ≤ s.mem →
      (tick cfg url env s).save = none ∧ (tick cfg url env s).fetched = [] ∧
      (tick cfg url env s).dispatches = [] ∧ (tick cfg url env s).state = s := by
  intro cfg url env s h h1 h2
  have hf : fetchNewTransactions env.rpc (selectWallets cfg env.registry) s.mem url =
      ⟨s.mem, none, [], []⟩ := fetch_noop h1 h2
  unfold tick
  rw [hf]
  unfold applyFetch
  simp

/-- Witness for C9: a tick at height 5 with checkpoint 7 does nothing. -/
theorem spec_c9_witness :
    (tick [] "" envTiny ⟨7, 7⟩).save = none ∧ (tick [] "" envTiny ⟨7, 7⟩).fetched = [] ∧
    (tick [] "" envTiny ⟨7, 7⟩).dispatches = [] ∧ (tick [] "" envTiny ⟨7, 7⟩).state = ⟨7, 7⟩ :=
  spec_c9_noop [] "" envTiny ⟨7, 7⟩ 5 (by rfl) (by norm_num)

/-! ### Claim C3 -/

/-- C3: across any sequence of ticks with arbitrary RPC, registry, and
analyzer results, the values written to the checkpoint are strictly
increasing (each one above the initial in-memory checkpoint), and the
persisted value never decreases. -/
theorem spec_c3_monotone :
    ∀ (cfg : List String) (url : String) (envs : List TickEnv) (s : LoopState),
      List.Chain' (· < ·) (s.mem :: (runTicks cfg url envs s).2) ∧
      (s.persisted ≤ s.mem →
        s.persisted ≤ (runTicks cfg url envs s).1.persisted ∧
        (runTicks cfg url envs s).1.persisted ≤ (runTicks cfg url envs s).1.mem) := by
  intro cfg url envs
  induction envs with
  | nil =>
    intro s
    constructor
    · simp [runTicks]
    · intro hle
      simp only [runTicks]
      exact ⟨le_refl _, hle⟩
  | cons e es ih =>
    intro s
    have hspec :
        ((tick cfg url e s).save = none ∧ (tick cfg url e s).state = s) ∨
        ((tick cfg url e s).save =
            some (fetchNewTransactions e.rpc (selectWallets cfg e.registry) s.mem url).newLast ∧
          s.mem < (fetchNewTransactions e.rpc (selectWallets cfg e.registry) s.mem url).newLast ∧
          (tick cfg url e s).state.mem =
            (fetchNewTransactions e.rpc (selectWallets cfg e.registry) s.mem url).newLast ∧
          ((tick cfg url e s).state.persisted =
              (fetchNewTransactions e.rpc (selectWallets cfg e.registry) s.mem url).newLast ∨
            (tick cfg url e s).state.persisted = s.persisted)) :=
      applyFetch_spec s e.saveOk
        (fetchNewTransactions e.rpc (selectWallets cfg e.registry) s.mem url)
        (selectWallets cfg e.registry)
    rcases hspec with ⟨hsave, hstate⟩ | ⟨hsave, hlt, hmem, hpers⟩
    · constructor
      · simpa [runTicks, hsave, hstate] using (ih s).1
      · intro hle
        have h2 := (ih s).2 hle
        simpa [runTicks, hsave, hstate] using h2
    · have ch := (ih (tick cfg url e s).state).1
      rw [hmem] at ch
      constructor
      · simp only [runTicks, hsave, Option.toList_some, List.singleton_append]
        rw [List.chain'_cons]
        exact ⟨hlt, ch⟩
      · intro hle
        have hinv : (tick cfg url e s).state.persisted ≤ (tick cfg url e s).state.mem := by
          rcases hpers with hp | hp
          · rw [hp, hmem]
          · rw [hp, hmem]
            exact le_trans hle (le_of_lt hlt)
        have h2 := (ih (tick cfg url e s).state).2 hinv
        have hsp : s.persisted ≤ (tick cfg url e s).state.persisted := by
          rcases hpers with hp | hp
          · rw [hp]
            exact le_trans hle (le_of_lt hlt)
          · rw [hp]
        constructor
        · simp only [runTicks]
          exact le_trans hsp h2.1
        · simp only [runTicks]
          exact h2.2

/-- Witness for C3: one successful tick from checkpoint 0 at height 5
writes exactly the increasing trace `[5]`. -/
theorem spec_c3_witness :
    List.Chain' (· < ·) ((0 : Nat) :: (runTicks [] "" [envTiny] ⟨0, 0⟩).2) ∧
    (0 : Nat) ≤ (runTicks [] "" [envTiny] ⟨0, 0⟩).1.persisted ∧
    (runTicks [] "" [envTiny] ⟨0, 0⟩).1.persisted ≤ (runTicks [] "" [envTiny] ⟨0, 0⟩).1.mem :=
  ⟨(spec_c3_monotone [] "" [envTiny] ⟨0, 0⟩).1,
    ((spec_c3_monotone [] "" [envTiny] ⟨0, 0⟩).2 (le_refl 0)).1,
    ((spec_c3_monotone [] "" [envTiny] ⟨0, 0⟩).2 (le_refl 0)).2⟩

/-! ### Claim C1 -/

/-- C1 counterexample: in the 101–110 scan with blocks 101–103 retrievable
and block 104 failing, the persisted checkpoint after the tick is the
pre-tick value 100 — not 103 as claimed — because the main loop discards
the scan function's partial progress when it returns an error. -/
theorem spec_c1_counterexample :
    (tick [] "" envC1 ⟨100, 100⟩).state.persisted = 100 ∧
    ¬ ((tick [] "" envC1 ⟨100, 100⟩).state.persisted = 103) ∧
    (tick [] "" envC1 ⟨100, 100⟩).save = none ∧
    (fetchNewTransactions envC1.rpc [] 100 "").newLast = 103 := by
  refine ⟨by decide, by decide, by decide, by decide⟩

/-- C1 amended: when block 104 of a 101–110 scan fails (blocks 101–103
retrieved), `fetchNewTransactions` returns 103 — the last fully completed
block — together with the error; the main loop then saves nothing, so the
persisted checkpoint stays at the pre-tick value 100 (never advanced to
110, and never past the last fully completed block). -/
theorem spec_c1_partial_failure :
    ∀ (cfg : List String) (url : String) (env : TickEnv) (s : LoopState)
      (b1 b2 b3 : Block) (e : String) (cid : Nat) (w : List String),
      env.rpc.header = Except.ok 110 → env.rpc.networkId = Except.ok cid →
      env.rpc.blockAt 101 = Except.ok b1 → env.rpc.blockAt 102 = Except.ok b2 →
      env.rpc.blockAt 103 = Except.ok b3 → env.rpc.blockAt 104 = Except.error e →
      s.mem = 100 →
      (fetchNewTransactions env.rpc w 100 url).newLast = 103 ∧
      (fetchNewTransactions env.rpc w 100 url).err = some e ∧
      (tick cfg url env s).save = none ∧ (tick cfg url env s).state = s := by
  intro cfg url env s b1 b2 b3 e cid w h1 h2 hb1 hb2 hb3 hb4 hm
  have key : ∀ w0 : List String,
      (fetchNewTransactions env.rpc w0 100 url).newLast = 103 ∧
      (fetchNewTransactions env.rpc w0 100 url).err = some e := by
    intro w0
    have hseed : seedLast 100 110 = 100 := by decide
    have hok : ∀ j, 1 ≤ j → j ≤ 3 → ∃ b, env.rpc.blockAt (100 + j) = Except.ok b := by
      intro j hj1 hj2
      interval_cases j
      · exact ⟨b1, hb1⟩
      · exact ⟨b2, hb2⟩
      · exact ⟨b3, hb3⟩
    have herr : env.rpc.blockAt (100 + 3 + 1) = Except.error e := hb4
    have hsl := scanLoop_err env.rpc (w0.map hexToAddress) url e 10 100 3
      (by norm_num) hok herr
    have hfetch : fetchNewTransactions env.rpc w0 100 url =
        scanLoop env.rpc (w0.map hexToAddress) url 100 10 := by
      simp only [fetchNewTransactions, h1, hseed]
      rw [if_neg (by norm_num)]
      simp only [h2]
    rw [hfetch]
    exact ⟨hsl.1, hsl.2⟩
  have he := (key (selectWallets cfg env.registry)).2
  have htick : tick cfg url env s =
      ⟨s, none,
        (fetchNewTransactions env.rpc (selectWallets cfg env.registry) 100 url).fetched,
        (fetchNewTransactions env.rpc (selectWallets cfg env.registry) 100 url).dispatches,
        selectWallets cfg env.registry⟩ := by
    unfold tick
    rw [hm]
    exact applyFetch_err _ _ _ _ e he
  exact ⟨(key w).1, (key w).2, by rw [htick], by rw [htick]⟩

/-- Witness for C1 (amended): the concrete scenario environment. -/
theorem spec_c1_witness :
    (fetchNewTransactions envC1.rpc [] 100 "").newLast = 103 ∧
    (fetchNewTransactions envC1.rpc [] 100 "").err = some "rpc: block fetch failed" ∧
    (tick [] "" envC1 ⟨100, 100⟩).save = none ∧
    (tick [] "" envC1 ⟨100, 100⟩).state = ⟨100, 100⟩ :=
  spec_c1_partial_failure [] "" envC1 ⟨100, 100⟩ ⟨[], 7⟩ ⟨[], 7⟩ ⟨[], 7⟩
    "rpc: block fetch failed" 1 [] (by rfl) (by rfl) (by rfl) (by rfl) (by rfl) (by rfl)
    (by rfl)

/-! ### Claim C2 -/

/-- C2 counterexample: for checkpoint 0 and height 5000 the first scanned
block is 4001, not 4000 (the seeded base is 4000, the range starts one
above it); and under the seeded-base reading, checkpoint 0 at height 500
gives base 0, not 1.  Either reading falsifies one of the claim's two
numbers. -/
theorem spec_c2_counterexample :
    (fetchNewTransactions envHeight5000 [] 0 "").fetched.head? = some 4001 ∧
    ¬ ((fetchNewTransactions envHeight5000 [] 0 "").fetched.head? = some 4000) ∧
    seedLast 0 500 = 0 ∧ ¬ (seedLast 0 500 = 1) := by
  refine ⟨by decide, by decide, by decide, by decide⟩

/-- C2 amended: with checkpoint 0 and height 5000 the bootstrap seeds the
base at 4000 (height minus the 1000-block window) so the first scanned
block is 4001; with checkpoint 0 and height 500 the first scanned block is
1; and the seeding changes the base exactly when the checkpoint is 0 and
the height exceeds 1000. -/
theorem spec_c2_bootstrap :
    seedLast 0 5000 = 4000
    ∧ (∀ (env : RpcEnv) (w : List String) (url : String) (cid : Nat),
        env.header = Except.ok 5000 → env.networkId = Except.ok cid →
        (fetchNewTransactions env w 0 url).fetched.head? = some 4001)
    ∧ (∀ (env : RpcEnv) (w : List String) (url : String) (cid : Nat),
        env.header = Except.ok 500 → env.networkId = Except.ok cid →
        (fetchNewTransactions env w 0 url).fetched.head? = some 1)
    ∧ (∀ cp h, seedLast cp h ≠ cp ↔ (cp = 0 ∧ 1000 < h)) := by
  refine ⟨by decide, ?_, ?_, ?_⟩
  · intro env w url cid h1 h2
    have hs : seedLast 0 5000 = 4000 := by decide
    simp only [fetchNewTransactions, h1, hs]
    rw [if_neg (by norm_num)]
    simp only [h2]
    rw [show (5000 : Nat) - 4000 = 1000 by norm_num]
    rw [scanLoop_fetched_head env (w.map hexToAddress) url 4000 1000 (by norm_num)]
  · intro env w url cid h1 h2
    have hs : seedLast 0 500 = 0 := by decide
    simp only [fetchNewTransactions, h1, hs]
    rw [if_neg (by norm_num)]
    simp only [h2]
    rw [show (500 : Nat) - 0 = 500 by norm_num]
    rw [scanLoop_fetched_head env (w.map hexToAddress) url 0 500 (by norm_num)]
  · intro cp h
    unfold seedLast
    split
    · next hc =>
      constructor
      · intro _; exact hc
      · intro _; omega
    · next hc =>
      constructor
      · intro hne; exact absurd rfl hne
      · intro hand; exact absurd hand hc

/-- Witness for C2 (amended): the two concrete environments. -/
theorem spec_c2_witness :
    (fetchNewTransactions envHeight5000 [] 0 "").fetched.head? = some 4001 ∧
    (fetchNewTransactions envHeight500 [] 0 "").fetched.head? = some 1 :=
  ⟨spec_c2_bootstrap.2.1 envHeight5000 [] "" 1 (by rfl) (by rfl),
    spec_c2_bootstrap.2.2.1 envHeight500 [] "" 1 (by rfl) (by rfl)⟩

/-! ### Claim C7 -/

/-- C7: each tick matches against the registry's list exactly when a
registry is available, its query succeeds, and the result is non-empty; on
absence, failure, or empty result the configured wallet list is used, and
a registry failure changes nothing relative to having no registry at all
(it is never propagated to the scan). -/
theorem spec_c7_watchlist :
    ∀ (cfg : List String) (url : String) (env : TickEnv) (s : LoopState),
      (∀ w, env.registry = some (Except.ok w) → w ≠ [] →
        (tick cfg url env s).walletsUsed = w)
      ∧ (env.registry = none → (tick cfg url env s).walletsUsed = cfg)
      ∧ (∀ e, env.registry = some (Except.error e) →
          (tick cfg url env s).walletsUsed = cfg)
      ∧ (env.registry = some (Except.ok []) → (tick cfg url env s).walletsUsed = cfg)
      ∧ (∀ e, tick cfg url { env with registry := some (Except.error e) } s =
          tick cfg url { env with registry := none } s) := by
  intro cfg url env s
  have hwu : (tick cfg url env s).walletsUsed = selectWallets cfg env.registry := by
    unfold tick
    exact applyFetch_walletsUsed _ _ _ _
  refine ⟨?_, ?_, ?_, ?_, ?_⟩
  · intro w hreg hne
    rw [hwu, hreg]
    simp [selectWallets, List.isEmpty_iff, hne]
  · intro hreg
    rw [hwu, hreg]
    rfl
  · intro e hreg
    rw [hwu, hreg]
    rfl
  · intro hreg
    rw [hwu, hreg]
    rfl
  · intro e
    rfl

/-- Witness for C7: a tick whose registry answers `["0xaa"]` uses it. -/
theorem spec_c7_witness : (tick [] "" envRegistryOk ⟨0, 0⟩).walletsUsed = ["0xaa"] :=
  (spec_c7_watchlist [] "" envRegistryOk ⟨0, 0⟩).1 ["0xaa"] (by rfl) (by simp)

/-! ### Claim C8 -/

/-- C8: with an analyzer configured, a block produces exactly one dispatch
per matching transaction (a watched sender with an unwatched recipient
yields one dispatch, not two), every dispatch originates from a matching
transaction (so a transaction with neither endpoint watched is never
dispatched), and the scan visits each block of a range at most once per
tick. -/
theorem spec_c8_match_once :
    ∀ (wset : List Nat) (url : String) (bn : Nat) (b : Block), url ≠ "" →
      ((dispatchesOfBlock wset url bn b).length =
          (b.txs.filter (matchesTx wset)).length
      ∧ (∀ d ∈ dispatchesOfBlock wset url bn b,
          ∃ tx, tx ∈ b.txs ∧ matchesTx wset tx = true ∧ d = txDataOf bn b.time tx)
      ∧ (∀ tx f, b.txs = [tx] → tx.sender = some f → f ∈ wset →
          tx.toField.getD 0 ∉ wset →
          dispatchesOfBlock wset url bn b = [txDataOf bn b.time tx])
      ∧ (∀ tx f, b.txs = [tx] → tx.sender = some f → f ∉ wset →
          tx.toField.getD 0 ∉ wset →
          dispatchesOfBlock wset url bn b = [])
      ∧ (∀ (env : RpcEnv) (last count : Nat),
          (scanLoop env wset url last count).fetched.Nodup)) := by
  intro wset url bn b hurl
  refine ⟨?_, ?_, ?_, ?_, ?_⟩
  · simp [dispatchesOfBlock, if_neg hurl]
  · intro d hd
    simp only [dispatchesOfBlock, if_neg hurl, List.mem_map] at hd
    obtain ⟨tx, htx, rfl⟩ := hd
    rw [List.mem_filter] at htx
    exact ⟨tx, htx.1, htx.2, rfl⟩
  · intro tx f htxs hsender hf ht
    simp [dispatchesOfBlock, if_neg hurl, htxs, List.filter, matchesTx, hsender, hf, ht]
  · intro tx f htxs hsender hf ht
    simp [dispatchesOfBlock, if_neg hurl, htxs, List.filter, matchesTx, hsender, hf, ht]
  · intro env last count
    exact scanLoop_fetched_nodup env wset url count last

/-- Witness for C8: a one-transaction block with watched sender 5 and
unwatched recipient 7 dispatches exactly once. -/
theorem spec_c8_witness :
    dispatchesOfBlock [5] "http://analyzer" 3 blockDemo = [txDataOf 3 blockDemo.time txDemo] :=
  (spec_c8_match_once [5] "http://analyzer" 3 blockDemo (by decide)).2.2.1 txDemo 5
    (by rfl) (by rfl) (by decide) (by decide)

end BlockSentinel
